import Mathlib

/-!
Verification of the metadata-indexed transfer orchestration layer of T-Vault
(`src/src-tauri/src/storage.rs`), via a shallow embedding in Lean.

Pure data manipulation is translated directly.  Effectful boundaries are made
explicit parameters of the embedded functions:
the wall clock becomes explicit time arguments, the remote channel becomes an
oracle function, and the per-attempt outcome of a transfer becomes a list of
attempt results consumed in order.  Machine integers of the Rust code
(`u64`, `u32`, `usize`) are modelled as `Nat`, and the signed `i32`/`i64`
(message ids, chat ids, timestamps) as `Int`; none of the modelled code paths
can overflow on the inputs considered (sizes are checked against the 2 GiB
ceiling, retry counters stay below 5).  String handling in the repository is
ASCII, so `Char.toLower`-based models of Rust's `to_lowercase`/`trim` agree
with the source on every string that appears.
-/

set_option maxRecDepth 20000

namespace TVault

/-! ### Character-list helpers: models of the Rust `str` operations used -/

/-- ASCII whitespace test, as used by Rust `str::trim` on the ASCII inputs of
this code base. -/
def isWsChar (c : Char) : Bool :=
  c == ' ' || c == '\t' || c == '\n' || c == '\r'

/-- Model of Rust `str::trim`. -/
def trimL (l : List Char) : List Char :=
  ((l.dropWhile isWsChar).reverse.dropWhile isWsChar).reverse

/-- Model of Rust `str::to_lowercase` (ASCII). -/
def toLowerL (l : List Char) : List Char :=
  l.map Char.toLower

/-- Model of Rust `str::contains(pat)`: `pat` occurs as a contiguous substring
of `l`. -/
def containsSub (l pat : List Char) : Bool :=
  match l with
  | [] => pat.isEmpty
  | _ :: rest => pat.isPrefixOf l || containsSub rest pat

/-- Value of a decimal digit string, as parsed by Rust `str::parse::<u64>`
(modulo the overflow check, made explicit at the call site). -/
def digitsToNat (l : List Char) : Nat :=
  l.foldl (fun acc c => acc * 10 + (c.toNat - 48)) 0

/-- The literal part of the regex `flood_wait_(\d+)` from
`storage.rs::extract_flood_wait`. -/
def floodPat : List Char := "flood_wait_".data

/-- Model of `storage.rs::extract_flood_wait`: leftmost match of the regex
`flood_wait_(\d+)`, with the captured digits parsed as `u64`
(`parse().ok()` yields `None` on overflow, and the regex engine keeps
scanning when the literal occurs with no digit after it). -/
def extract_flood_wait : List Char → Option Nat
  | [] => none
  | c :: rest =>
    if floodPat.isPrefixOf (c :: rest) then
      let ds := ((c :: rest).drop floodPat.length).takeWhile Char.isDigit
      if ds.isEmpty then extract_flood_wait rest
      else if digitsToNat ds < 2 ^ 64 then some (digitsToNat ds) else none
    else extract_flood_wait rest

/-- Model of `storage.rs::is_retryable_error`: an error is transient when its
lowercased message contains one of eleven fixed markers. -/
def is_retryable_error (error_str : String) : Bool :=
  let l := toLowerL error_str.data
  containsSub l "deadline has elapsed".data ||
  containsSub l "timeout".data ||
  containsSub l "flood_wait".data ||
  containsSub l "too many requests".data ||
  containsSub l "server".data ||
  containsSub l "network".data ||
  containsSub l "connection".data ||
  containsSub l "transport".data ||
  containsSub l "timed out".data ||
  containsSub l "closed".data ||
  containsSub l "broken pipe".data

/-! ### Data model (`FileMetadata`, `FolderMetadata`, `MetadataStore`) -/

/-- Model of `storage.rs::FileMetadata`. -/
structure FileMetadata where
  id : String
  name : String
  size : Nat
  mime_type : String
  created_at : Int
  folder : String
  is_folder : Bool
  thumbnail : Option String
  message_id : Option Int
  encrypted : Bool
  chat_id : Option Int
deriving DecidableEq, Repr

/-- Model of `storage.rs::FolderMetadata`. -/
structure FolderMetadata where
  path : String
  chat_id : Option Int
  chat_title : Option String
  created_at : Int
deriving DecidableEq, Repr

/-- Model of `storage.rs::MetadataStore`. -/
structure MetadataStore where
  version : Nat
  files : List FileMetadata
  folders : List String
  folder_metadata : List FolderMetadata
deriving DecidableEq, Repr

/-- Model of `MetadataStore::new`. -/
def MetadataStore.new : MetadataStore :=
  { version := 2, files := [], folders := ["/"], folder_metadata := [] }

/-- Full logical path of a virtual folder entry, as reconstructed inside
`storage.rs::delete_folder` (`entry_full_path`). -/
def entryFullPath (f : FileMetadata) : String :=
  if f.folder = "/" then "/" ++ f.name else f.folder ++ "/" ++ f.name

/-! ### Resilience controller: the retry loop of `storage.rs::upload_file`

One iteration of the Rust loop makes one attempt; the attempt's outcome is
modelled by the next element of a list of `AttemptResult`s.  Sleeps are
recorded instead of performed.  The two exhaustion messages of the source
("Upload failed after N attempts ..." for a retryable final error and
"Upload failed: e" for a non-retryable one) are modelled by the two failure
constructors, each carrying the final error. -/

/-- Outcome of a single call to `attempt_upload` (wrapped in its timeout). -/
inductive AttemptResult where
  | ok (id : Int)
  | err (msg : String)
deriving DecidableEq, Repr

/-- Final outcome of the retry loop.  `pending` is a model artifact for an
attempt list too short to drive the loop to completion. -/
inductive UploadOutcome where
  | success (id : Int)
  | transferExhausted (msg : String)
  | transferFailed (msg : String)
  | pending
deriving DecidableEq, Repr

/-- Observable trace of the retry loop: outcome, number of attempts actually
made, and the seconds slept between attempts, in order. -/
structure UploadTrace where
  outcome : UploadOutcome
  attemptsMade : Nat
  sleeps : List Nat
deriving DecidableEq, Repr

/-- `MAX_RETRIES` from `storage.rs::upload_file`. -/
def MAX_RETRIES : Nat := 5

/-- Sleep computation of `storage.rs::upload_file` after a failed attempt
(`retry_count` has already been incremented, so it is the 1-based index of
the attempt that just failed). -/
def backoffWait (error_str : String) (retry_count : Nat) : Nat :=
  let lower := toLowerL error_str.data
  if containsSub lower "flood_wait".data then
    min ((extract_flood_wait lower).getD 30) 60
  else if containsSub lower "too many requests".data then 30
  else min (2 ^ (retry_count - 1)) 30

/-- The retry loop of `storage.rs::upload_file` (lines 556-688), driven by a
list of attempt outcomes. -/
def uploadLoop : List AttemptResult → Nat → UploadTrace
  | [], _ => ⟨.pending, 0, []⟩
  | .ok id :: _, _ => ⟨.success id, 1, []⟩
  | .err e :: rest, retry_count =>
    let rc := retry_count + 1
    if MAX_RETRIES ≤ rc then
      if is_retryable_error e then ⟨.transferExhausted e, 1, []⟩
      else ⟨.transferFailed e, 1, []⟩
    else
      let w := backoffWait e rc
      let t := uploadLoop rest rc
      ⟨t.outcome, t.attemptsMade + 1, w :: t.sleeps⟩

/-- The retry loop started with `retry_count = 0`, as in the source. -/
def runUpload (results : List AttemptResult) : UploadTrace :=
  uploadLoop results 0

/-! ### Transfer progress tracker (`ProgressReader::poll_read` /
`ProgressWriter::poll_write`)

Both wrappers run the identical throttle logic after every successful
underlying operation that moved `n > 0` bytes.  Time is modelled by an
explicit `now` argument in milliseconds.  The `f64` percentage
`((current as f64 / total as f64) * 100.0) as u32` is modelled by the exact
integer `current * 100 / total`; on the inputs of the claims below the two
agree (in general the float may differ by one unit on non-milestone values,
which neither side of the milestone test `progress == 100 || progress == 0`
can cross for these inputs). -/

/-- Throttle state of `ProgressReader` / `ProgressWriter`. -/
structure ProgressState where
  total_size : Nat
  current_size : Nat
  last_reported_progress : Nat
  last_reported_time : Nat
deriving DecidableEq, Repr

/-- Fresh wrapper state: `last_reported_time` is the construction instant. -/
def ProgressState.init (total t0 : Nat) : ProgressState :=
  ⟨total, 0, 0, t0⟩

/-- One intercepted read/write of `read_len` bytes at instant `now`
(milliseconds): returns the new state and the emitted notification, if any,
as `(progress_percent, bytes_so_far, total_bytes)`. -/
def progressStep (s : ProgressState) (read_len now : Nat) :
    ProgressState × Option (Nat × Nat × Nat) :=
  if read_len = 0 then (s, none)
  else
    let current := s.current_size + read_len
    if 0 < s.total_size then
      let progress := current * 100 / s.total_size
      let elapsed := now - s.last_reported_time
      let time_passed := decide (1000 ≤ elapsed)
      let stale := decide (5000 ≤ elapsed)
      let significant_change :=
        decide (5 ≤ ((progress : Int) - (s.last_reported_progress : Int)).natAbs)
      let is_milestone := decide (progress = 100 ∨ progress = 0)
      if is_milestone || (time_passed && (significant_change || stale)) then
        (⟨s.total_size, current, progress, now⟩, some (progress, current, s.total_size))
      else
        (⟨s.total_size, current, s.last_reported_progress, s.last_reported_time⟩, none)
    else (⟨s.total_size, current, s.last_reported_progress, s.last_reported_time⟩, none)

/-- Run a whole transfer: feed the wrapper a list of `(read_len, now)` events
and collect the emitted notifications in order. -/
def progressRun (s : ProgressState) : List (Nat × Nat) → List (Nat × Nat × Nat)
  | [] => []
  | (len, now) :: rest =>
    match progressStep s len now with
    | (s', some e) => e :: progressRun s' rest
    | (s', none) => progressRun s' rest

/-! ### ID normalization (`storage.rs::normalize_file_ids`)

The synthesized id `local:{timestamp_nanos}:{counter}` depends on the wall
clock; the clock is modelled by an oracle `ts` giving the nanosecond
timestamp observed at the synthesis call with the given counter value. -/

/-- `chat_id.map(to_string).unwrap_or("saved")`. -/
def chatPart : Option Int → String
  | some cid => toString cid
  | none => "saved"

/-- The id `normalize_file_ids` derives for a non-folder entry before the
collision check: re-derived from the message reference when available,
otherwise the existing id. -/
def derivedId (f : FileMetadata) : String :=
  match f.message_id with
  | some m => chatPart f.chat_id ++ ":" ++ toString m
  | none => f.id

/-- The synthesized replacement id `local:{timestamp}:{counter}`. -/
def synthId (ts : Nat → Int) (c : Nat) : String :=
  "local:" ++ toString (ts c) ++ ":" ++ toString c

/-- The loop body of `storage.rs::normalize_file_ids`, with the running
`seen` set (modelled as a list) and synthesis counter made explicit. -/
def normalizeGo (ts : Nat → Int) :
    List FileMetadata → List String → Nat → List FileMetadata
  | [], _, _ => []
  | f :: rest, seen, counter =>
    if f.is_folder then
      f :: normalizeGo ts rest (f.id :: seen) counter
    else
      let nid := derivedId f
      if nid = "" ∨ nid ∈ seen then
        let c := counter + 1
        let nid2 := synthId ts c
        { f with id := nid2 } :: normalizeGo ts rest (nid2 :: seen) c
      else
        { f with id := nid } :: normalizeGo ts rest (nid :: seen) counter

/-- Model of `storage.rs::normalize_file_ids` (the returned `changed` flag,
used only to decide whether to persist, is not modelled). -/
def normalize_file_ids (ts : Nat → Int) (store : MetadataStore) : MetadataStore :=
  { store with files := normalizeGo ts store.files [] 0 }

/-- Every id that can end up in the `seen` set without being synthesized:
the original ids and the derived ids of the store's entries. -/
def allCandidates (store : MetadataStore) : List String :=
  store.files.map (fun f => f.id) ++ store.files.map derivedId

/-- Ids of the non-folder entries of a file list. -/
def nonFolderIds (l : List FileMetadata) : List String :=
  (l.filter (fun f => !f.is_folder)).map (fun f => f.id)

/-! ### Upload size validation (`storage.rs::upload_file`, lines 440-447) -/

/-- `MAX_FILE_SIZE`: the 2 GiB Telegram per-file ceiling. -/
def MAX_FILE_SIZE : Nat := 2 * 1024 * 1024 * 1024

/-- The two pre-network size rejections of `upload_file`. -/
inductive UploadSizeError where
  | payloadTooLarge
  | emptySource
deriving DecidableEq, Repr

/-- The size checks `upload_file` performs after reading the file's length
and before any client/network interaction, in source order. -/
def checkUploadSize (file_size : Nat) : Except UploadSizeError Unit :=
  if MAX_FILE_SIZE ≤ file_size then .error .payloadTooLarge
  else if file_size = 0 then .error .emptySource
  else .ok ()

/-! ### Folder deletion (`storage.rs::delete_folder`)

The remote channel deletion is best-effort and does not influence the local
result, so it is not part of the pure model.  The function returns the new
store together with the `Ok(true/false)` result of the source. -/

/-- Model of Rust `str::starts_with`, on the underlying character lists
(so that it evaluates inside the kernel). -/
def strStartsWith (s pat : String) : Bool :=
  pat.data.isPrefixOf s.data

/-- Model of `storage.rs::delete_folder` (local-metadata part). -/
def delete_folder (store : MetadataStore) (folder_path : String) :
    MetadataStore × Bool :=
  match store.folder_metadata.find? (fun fm => fm.path == folder_path) with
  | some _ =>
    let folderPref := folder_path ++ "/"
    let files' := store.files.filter (fun f =>
      if f.folder == folder_path then false
      else if strStartsWith f.folder folderPref then false
      else if f.is_folder && (entryFullPath f == folder_path) then false
      else true)
    ({ store with
        folder_metadata := store.folder_metadata.filter (fun fm => fm.path != folder_path),
        folders := store.folders.filter (fun p => p != folder_path),
        files := files' }, true)
  | none => (store, false)

/-- The invariant of spec section 3: every `FolderMetadata` path other than
the root has a corresponding `is_folder = true` entry whose full logical path
equals it (that entry necessarily sits in the path's parent folder). -/
def folderInvariant (store : MetadataStore) : Prop :=
  ∀ fm ∈ store.folder_metadata, fm.path ≠ "/" →
    ∃ f ∈ store.files, f.is_folder = true ∧ entryFullPath f = fm.path

/-! ### Migration orchestrator (`storage.rs::migrate_files_to_folders`)

Per-candidate download/upload outcomes are modelled by an oracle indexed by
the candidate's position in the migration list.  Temp-file management and the
ignored result of deleting the original are environment effects outside the
report. -/

/-- Per-candidate outcome of the download / re-upload steps. -/
inductive MigOutcome where
  | downloadErr
  | uploadErr
  | ok
deriving DecidableEq, Repr

/-- Model of `storage.rs::MigrationReport`. -/
structure MigrationReport where
  total : Nat
  migrated : Nat
  failed : Nat
  skipped : Nat
deriving DecidableEq, Repr

/-- The files selected for migration: non-folder entries outside the root
with no chat assignment. -/
def eligibleFiles (store : MetadataStore) : List FileMetadata :=
  store.files.filter (fun f => !f.is_folder && f.folder != "/" && f.chat_id.isNone)

/-- `folder_has_channel` check of the migration loop, against the metadata
snapshot taken before the loop. -/
def folderHasChannel (store : MetadataStore) (f : FileMetadata) : Bool :=
  store.folder_metadata.any (fun fm => fm.path == f.folder && fm.chat_id.isSome)

/-- The migration loop: per candidate, skip when the folder has no channel;
otherwise one of the three oracle outcomes decides between `failed`
(download or re-upload error) and `migrated`.  The accumulator carries
`(migrated, failed, skipped)`. -/
def migGo (store : MetadataStore) (oc : Nat → MigOutcome) :
    List FileMetadata → Nat → Nat × Nat × Nat → Nat × Nat × Nat
  | [], _, acc => acc
  | f :: rest, i, (m, fl, sk) =>
    if !folderHasChannel store f then
      migGo store oc rest (i + 1) (m, fl, sk + 1)
    else
      match oc i with
      | .downloadErr => migGo store oc rest (i + 1) (m, fl + 1, sk)
      | .uploadErr => migGo store oc rest (i + 1) (m, fl + 1, sk)
      | .ok => migGo store oc rest (i + 1) (m + 1, fl, sk)

/-- Model of `storage.rs::migrate_files_to_folders`. -/
def migrate_files_to_folders (store : MetadataStore) (oc : Nat → MigOutcome) :
    MigrationReport :=
  let cands := eligibleFiles store
  let r := migGo store oc cands 0 (0, 0, 0)
  ⟨cands.length, r.1, r.2.1, r.2.2⟩

/-! ### Folder creation (`storage.rs::create_folder`)

The remote channel creation is modelled by an oracle `chan` returning the
created channel's `(chat_id, chat_name)`; it is consulted only on the success
path, exactly as the source calls `create_folder_channel` only after all
validation passed.  The two clock reads are the explicit arguments `nowTs`
(epoch seconds) and `nowNanos` (nanosecond timestamp for the virtual entry's
id). -/

/-- Sanitization `folder_name.trim().replace('/', "_").replace('\\', "_")`. -/
def sanitizeL (l : List Char) : List Char :=
  ((trimL l).map (fun c => if c = '/' then '_' else c)).map
    (fun c => if c = '\\' then '_' else c)

/-- `parent_folder.trim_end_matches('/')`. -/
def trimEndSlashL (l : List Char) : List Char :=
  (l.reverse.dropWhile (fun c => c == '/')).reverse

/-- The full path `create_folder` builds from parent and sanitized name. -/
def fullPathOf (folder_name parent_folder : String) : String :=
  if parent_folder = "/" then "/" ++ String.mk (sanitizeL folder_name.data)
  else String.mk (trimEndSlashL parent_folder.data) ++ "/" ++
    String.mk (sanitizeL folder_name.data)

/-- Model of `storage.rs::create_folder`.  Errors carry the source's message;
on success the new store and the created full path are returned. -/
def create_folder (store : MetadataStore) (folder_name parent_folder : String)
    (chan : Unit → Int × String) (nowTs nowNanos : Int) :
    Except String (MetadataStore × String) :=
  if (trimL folder_name.data).isEmpty then .error "Folder name cannot be empty"
  else
    let sanitized_name := String.mk (sanitizeL folder_name.data)
    if (sanitizeL folder_name.data).isEmpty then .error "Invalid folder name"
    else
      let full_path := fullPathOf folder_name parent_folder
      if store.folders.contains full_path then .error "Folder already exists"
      else if store.files.any (fun f =>
          f.folder == parent_folder && f.name == sanitized_name) then
        .error "A file or folder with this name already exists"
      else
        let cr := chan ()
        let store' : MetadataStore :=
          { store with
            folders := store.folders ++ [full_path],
            folder_metadata := store.folder_metadata ++
              [⟨full_path, some cr.1, some cr.2, nowTs⟩],
            files := store.files ++
              [{ id := "folder_" ++ toString nowNanos,
                 name := sanitized_name,
                 size := 0,
                 mime_type := "folder",
                 created_at := nowTs,
                 folder := parent_folder,
                 is_folder := true,
                 thumbnail := none,
                 message_id := none,
                 encrypted := false,
                 chat_id := some cr.1 }] }
        .ok (store', full_path)

/-- The store the metadata cache holds after a `create_folder` call:
`save_metadata_local` runs only on the success path, so an error leaves the
previous store in place. -/
def storeAfterCreate (store : MetadataStore) (folder_name parent_folder : String)
    (chan : Unit → Int × String) (nowTs nowNanos : Int) : MetadataStore :=
  match create_folder store folder_name parent_folder chan nowTs nowNanos with
  | .ok r => r.1
  | .error _ => store

/-! ### Listing (`storage.rs::list_files`)

`Vec::sort_by` with comparator `b.created_at.cmp(&a.created_at)` is a stable
sort by descending `created_at`; it is modelled by `List.insertionSort`
(also stable) with the corresponding relation. -/

/-- Model of `storage.rs::list_files` (reads a point-in-time copy; the store
itself is untouched, which the pure signature makes structural). -/
def list_files (store : MetadataStore) (folder : String) : List FileMetadata :=
  List.insertionSort (fun a b => b.created_at ≤ a.created_at)
    (store.files.filter (fun f => f.folder == folder))

/-! ### Concrete stores used by counterexamples and witnesses -/

/-- A non-folder entry, with the fields irrelevant to a given claim fixed. -/
def mkFile (id name folder : String) (created : Int)
    (msg : Option Int) (chat : Option Int) : FileMetadata :=
  { id := id, name := name, size := 1, mime_type := "application/octet-stream",
    created_at := created, folder := folder, is_folder := false,
    thumbnail := none, message_id := msg, encrypted := false, chat_id := chat }

/-- A virtual folder entry (`is_folder = true`). -/
def mkFolderEntry (id name folder : String) (chat : Option Int) : FileMetadata :=
  { id := id, name := name, size := 0, mime_type := "folder",
    created_at := 0, folder := folder, is_folder := true,
    thumbnail := none, message_id := none, encrypted := false, chat_id := chat }

/-- Store with two virtual folder entries sharing the id "dup":
`normalize_file_ids` skips folder entries, so the duplicate survives. -/
def dupFolderStore : MetadataStore :=
  { version := 2,
    files := [mkFolderEntry "dup" "A" "/" (some 1), mkFolderEntry "dup" "B" "/" (some 2)],
    folders := ["/", "/A", "/B"],
    folder_metadata := [⟨"/A", some 1, some "tA", 0⟩, ⟨"/B", some 2, some "tB", 0⟩] }

/-- Store with nested folders `/A` and `/A/B`, both with channel mappings and
virtual entries, plus files inside both and an unrelated folder `/C`. -/
def nestedStore : MetadataStore :=
  { version := 2,
    files :=
      [mkFolderEntry "fA" "A" "/" (some 1),
       mkFolderEntry "fB" "B" "/A" (some 2),
       mkFolderEntry "fC" "C" "/" (some 3),
       mkFile "1:10" "a.txt" "/A" 5 (some 10) (some 1),
       mkFile "2:11" "b.txt" "/A/B" 6 (some 11) (some 2),
       mkFile "3:12" "c.txt" "/C" 7 (some 12) (some 3),
       mkFile "saved:13" "r.txt" "/" 8 (some 13) none],
    folders := ["/", "/A", "/A/B", "/C"],
    folder_metadata :=
      [⟨"/A", some 1, some "tA", 0⟩,
       ⟨"/A/B", some 2, some "tB", 0⟩,
       ⟨"/C", some 3, some "tC", 0⟩] }

/-- A legacy store: files in `/A` and `/A/B` with their virtual folder
entries and the flat `folders` list, but no `FolderMetadata` record at all
(pre-folder-chat schema, accepted on load per the backward-compatibility
contract). -/
def legacyStore : MetadataStore :=
  { version := 1,
    files :=
      [mkFolderEntry "fA" "A" "/" none,
       mkFolderEntry "fB" "B" "/A" none,
       mkFile "saved:10" "a.txt" "/A" 5 (some 10) none,
       mkFile "saved:11" "b.txt" "/A/B" 6 (some 11) none],
    folders := ["/", "/A", "/A/B"],
    folder_metadata := [] }

/-- Store whose `folders` list already contains "/x". -/
def collisionStore : MetadataStore :=
  { version := 2, files := [], folders := ["/", "/x"], folder_metadata := [] }

/-- Single-file store used by the normalization witness. -/
def oneFileStore : MetadataStore :=
  { version := 2,
    files := [mkFile "x" "a.txt" "/" 0 (some 10) none],
    folders := ["/"],
    folder_metadata := [] }

/-! ## Theorems -/

/-- Claim C8 (confirmed): a source whose size is above the fixed 2 GiB
ceiling is rejected with the PayloadTooLarge-style error, a zero-byte source
is rejected with the EmptySource-style error, and a source strictly between
0 bytes and the ceiling passes both checks.  In `upload_file` these checks
run right after reading the file's length, before the client is obtained and
before any network call. -/
theorem upload_size_checks (s : Nat) :
    (MAX_FILE_SIZE < s → checkUploadSize s = .error .payloadTooLarge) ∧
    (s = 0 → checkUploadSize s = .error .emptySource) ∧
    (0 < s → s < MAX_FILE_SIZE → checkUploadSize s = .ok ()) := by
  unfold checkUploadSize
  refine ⟨fun h => ?_, fun h => ?_, fun h1 h2 => ?_⟩
  · rw [if_pos (Nat.le_of_lt h)]
  · subst h
    rw [if_neg (by decide), if_pos rfl]
  · rw [if_neg (by omega), if_neg (by omega)]

/-- Witness for C8: the concrete size 1 passes both checks. -/
theorem upload_size_checks_witness : checkUploadSize 1 = .ok () :=
  (upload_size_checks 1).2.2 (by decide) (by decide)

/-- Claim C10 (confirmed): `list_files` returns exactly the entries whose
`folder` field equals the given path (virtual `is_folder = true` entries
included), sorted by `created_at` descending; the function only reads a
point-in-time copy, so the store is not modified. -/
theorem list_files_spec (store : MetadataStore) (folder : String) :
    (list_files store folder).Perm
      (store.files.filter (fun f => f.folder == folder)) ∧
    List.Sorted (fun a b : FileMetadata => b.created_at ≤ a.created_at)
      (list_files store folder) ∧
    ∀ f : FileMetadata,
      f ∈ list_files store folder ↔ f ∈ store.files ∧ f.folder = folder := by
  haveI : IsTotal FileMetadata (fun a b => b.created_at ≤ a.created_at) :=
    ⟨fun a b => Int.le_total b.created_at a.created_at⟩
  haveI : IsTrans FileMetadata (fun a b => b.created_at ≤ a.created_at) :=
    ⟨fun _ _ _ hab hbc => le_trans hbc hab⟩
  refine ⟨List.perm_insertionSort _ _, List.sorted_insertionSort _ _, fun f => ?_⟩
  rw [list_files, List.mem_insertionSort, List.mem_filter, beq_iff_eq]

/-- Claim C1 counterexample: a fatal (non-retryable) first error does not end
the loop after one attempt.  With attempt outcomes
`[err "invalid request", ok 7]` the driver classifies the first error as
non-retryable, yet sleeps 1 second and spends a second attempt (which here
succeeds): 2 attempts, not 1, and no immediate TransferFailed. -/
theorem fatal_error_retried_counterexample :
    is_retryable_error "invalid request" = false ∧
    runUpload [.err "invalid request", .ok 7] = ⟨.success 7, 2, [1]⟩ := by
  constructor
  · decide
  · decide

/-- Claim C1 (corrected): the retry loop never consults retryability before
the budget is exhausted; every error, fatal or not, consumes an attempt and
causes a backoff sleep.  A persistently fatal error is retried until all 5
attempts are spent, and only then surfaces the TransferFailed-style failure
("Upload failed: e", without the "after N attempts" wording). -/
theorem fatal_error_budget (e : String) (h : is_retryable_error e = false) :
    runUpload (List.replicate MAX_RETRIES (.err e)) =
      ⟨.transferFailed e, 5,
        [backoffWait e 1, backoffWait e 2, backoffWait e 3, backoffWait e 4]⟩ := by
  simp only [runUpload, MAX_RETRIES, List.replicate]
  simp [uploadLoop, MAX_RETRIES, h]

/-- Witness for C1's corrected statement at the fatal error
"invalid request". -/
theorem fatal_error_budget_witness :
    runUpload (List.replicate MAX_RETRIES (.err "invalid request")) =
      ⟨.transferFailed "invalid request", 5,
        [backoffWait "invalid request" 1, backoffWait "invalid request" 2,
         backoffWait "invalid request" 3, backoffWait "invalid request" 4]⟩ :=
  fatal_error_budget "invalid request" (by decide)

/-- Claim C4 (confirmed): for the error sequence
`[flood_wait_12, timeout, success]` the loop makes exactly 3 attempts, sleeps
12 seconds (= the flood-wait hint, at least 12) after the first failure and
2 seconds (exponential backoff) after the second, and succeeds without
exhausting the 5-attempt budget.  In general, for a retryable failure the
sleep is the error's flood-wait seconds capped at 60 when the message
carries them, a fixed 30 seconds for "too many requests", and otherwise
exponential backoff `min(2^(attempt-1), 30)`. -/
theorem backoff_policy :
    (runUpload [.err "flood_wait_12", .err "timeout", .ok 5] =
      ⟨.success 5, 3, [12, 2]⟩) ∧
    ∀ (e : String) (rc w : Nat), is_retryable_error e = true →
      (containsSub (toLowerL e.data) "flood_wait".data = true →
        extract_flood_wait (toLowerL e.data) = some w →
        backoffWait e rc = min w 60) ∧
      (containsSub (toLowerL e.data) "flood_wait".data = false →
        containsSub (toLowerL e.data) "too many requests".data = true →
        backoffWait e rc = 30) ∧
      (containsSub (toLowerL e.data) "flood_wait".data = false →
        containsSub (toLowerL e.data) "too many requests".data = false →
        backoffWait e rc = min (2 ^ (rc - 1)) 30) := by
  constructor
  · decide
  · intro e rc w _
    refine ⟨fun h1 h2 => ?_, fun h1 h2 => ?_, fun h1 h2 => ?_⟩ <;>
      simp [backoffWait, h1, h2]

/-- Witness for C4's backoff characterization: a "too many requests" failure
(retryable, no flood-wait hint) sleeps the fixed 30 seconds. -/
theorem backoff_policy_witness : backoffWait "too many requests" 1 = 30 :=
  (backoff_policy.2 "too many requests" 1 0 (by decide)).2.1 (by decide) (by decide)

/-- Claim C3 counterexample: a 100-unit transfer fed in 1-unit increments
with no time elapsing emits exactly ONE notification, not the two the claim
states: progress is computed only after a nonzero read, so the first value
is 1 percent (never 0), and every value below 100 is suppressed by the
1-second gate. -/
theorem throttle_counterexample :
    (progressRun (ProgressState.init 100 0) (List.replicate 100 (1, 0))).length = 1 := by
  decide

/-- Claim C3 (corrected): under the throttle, the 100-unit / 1-unit-increment
no-delay transfer emits exactly one notification, the 100 percent milestone
`(100, 100, 100)`; the 0 percent milestone never fires for this input. -/
theorem throttle_single_emission :
    progressRun (ProgressState.init 100 0) (List.replicate 100 (1, 0)) =
      [(100, 100, 100)] := by
  decide

/-- Pointwise equality between the keep-predicate of `delete_folder` (an
if-chain over the three removal rules) and the claim's characterization of
what is removed. -/
theorem delete_keep_pred (path : String) (f : FileMetadata) :
    (if f.folder == path then false
     else if strStartsWith f.folder (path ++ "/") then false
     else if f.is_folder && (entryFullPath f == path) then false
     else true) =
    !(f.folder == path || strStartsWith f.folder (path ++ "/") ||
      (f.is_folder && (entryFullPath f == path))) := by
  cases h1 : f.folder == path <;>
    cases h2 : strStartsWith f.folder (path ++ "/") <;>
      cases h3 : f.is_folder && (entryFullPath f == path) <;>
        simp [h1, h2, h3]

/-- Claim C5 counterexample: the claim is not true for every store.  On a
legacy store that contains files in `/A` and `/A/B` (with their virtual
folder entries and `/A` in the flat `folders` list) but no `FolderMetadata`
record for `/A`, `delete_folder "/A"` takes the `find` = `None` branch:
it returns false and removes nothing — the file in `/A` survives. -/
theorem delete_folder_legacy_counterexample :
    (delete_folder legacyStore "/A").2 = false ∧
    (delete_folder legacyStore "/A").1 = legacyStore ∧
    ∃ f ∈ (delete_folder legacyStore "/A").1.files, f.folder = "/A" := by
  refine ⟨?_, ?_, ?_⟩
  · decide
  · decide
  · decide

/-- Claim C5 (corrected): on any store whose `folder_metadata` knows the
folder `/A` — the only case in which `delete_folder` proceeds; on a legacy
store without that record it returns false and removes nothing (see the
counterexample) — `delete_folder "/A"` succeeds and its resulting file list
is exactly the original list minus every entry whose folder equals `/A` or
is nested under `/A` (prefix `/A/`) and minus the virtual folder entries
whose full path is `/A` (the virtual entry for `/A/B` lives in folder `/A`,
so the first rule removes it); every other entry is kept unchanged and in
order. -/
theorem delete_folder_subtree (store : MetadataStore)
    (h : ∃ fm ∈ store.folder_metadata, fm.path = "/A") :
    (delete_folder store "/A").2 = true ∧
    (delete_folder store "/A").1.files = store.files.filter (fun f =>
      !(f.folder == "/A" || strStartsWith f.folder ("/A" ++ "/") ||
        (f.is_folder && (entryFullPath f == "/A")))) := by
  obtain ⟨fm, hfm, hpath⟩ := h
  have hsome : (store.folder_metadata.find? (fun g => g.path == "/A")).isSome :=
    List.find?_isSome.mpr ⟨fm, hfm, by simp [hpath]⟩
  unfold delete_folder
  cases hfind : store.folder_metadata.find? (fun g => g.path == "/A") with
  | none => rw [hfind] at hsome; simp at hsome
  | some g =>
    refine ⟨rfl, ?_⟩
    exact List.filter_congr fun f _ => delete_keep_pred "/A" f

/-- Witness for C5 on a concrete store with files in `/A`, `/A/B` and `/C`. -/
theorem delete_folder_subtree_witness : (delete_folder nestedStore "/A").2 = true :=
  (delete_folder_subtree nestedStore ⟨⟨"/A", some 1, some "tA", 0⟩, by decide, rfl⟩).1

/-- Claim C6 (code bug): `delete_folder` breaks the parent-entry invariant on
nested folders.  On a store holding folders `/A` and `/A/B` (both with
`FolderMetadata` records and virtual entries) the invariant holds, but
`delete_folder "/A"` removes only the exact-path `FolderMetadata` record
while deleting every file entry under `/A` — so the surviving record for
`/A/B` is left with no `is_folder = true` entry, violating the invariant the
spec states for every metadata-mutating operation. -/
theorem delete_folder_invariant_bug :
    folderInvariant nestedStore ∧
    ¬ folderInvariant (delete_folder nestedStore "/A").1 := by
  constructor
  · unfold folderInvariant
    decide
  · unfold folderInvariant
    decide

/-- Counts bookkeeping of the migration loop: for any oracle and any starting
accumulator, `skipped` grows by the number of candidates whose folder has no
ready channel, and `migrated + failed` grows by the number of remaining
candidates. -/
theorem migGo_spec (store : MetadataStore) (oc : Nat → MigOutcome)
    (l : List FileMetadata) :
    ∀ (i m fl sk : Nat),
      ((migGo store oc l i (m, fl, sk)).2.2 =
        sk + (l.filter (fun f => !folderHasChannel store f)).length) ∧
      ((migGo store oc l i (m, fl, sk)).1 + (migGo store oc l i (m, fl, sk)).2.1 =
        m + fl + (l.filter (fun f => folderHasChannel store f)).length) := by
  induction l with
  | nil => intro i m fl sk; simp [migGo]
  | cons f rest ih =>
    intro i m fl sk
    have hkeepN : ∀ p : FileMetadata → Bool,
        ((f :: rest).filter p).length =
          (rest.filter p).length + (if p f then 1 else 0) := by
      intro p
      rw [List.filter_cons]
      cases hp : p f <;> simp [hp]
    cases hch : folderHasChannel store f with
    | false =>
      obtain ⟨h1, h2⟩ := ih (i + 1) m fl (sk + 1)
      have hstep : migGo store oc (f :: rest) i (m, fl, sk) =
          migGo store oc rest (i + 1) (m, fl, sk + 1) := by
        simp [migGo, hch]
      rw [hstep, h1, h2, hkeepN, hkeepN]
      simp [hch]
      omega
    | true =>
      have hflt : ((f :: rest).filter (fun g => !folderHasChannel store g)).length =
          (rest.filter (fun g => !folderHasChannel store g)).length := by
        rw [hkeepN]; simp [hch]
      have hflt2 : ((f :: rest).filter (fun g => folderHasChannel store g)).length =
          (rest.filter (fun g => folderHasChannel store g)).length + 1 := by
        rw [hkeepN]; simp [hch]
      cases hoc : oc i with
      | downloadErr =>
        obtain ⟨h1, h2⟩ := ih (i + 1) m (fl + 1) sk
        have hstep : migGo store oc (f :: rest) i (m, fl, sk) =
            migGo store oc rest (i + 1) (m, fl + 1, sk) := by
          simp [migGo, hch, hoc]
        rw [hstep, h1, h2, hflt, hflt2]
        omega
      | uploadErr =>
        obtain ⟨h1, h2⟩ := ih (i + 1) m (fl + 1) sk
        have hstep : migGo store oc (f :: rest) i (m, fl, sk) =
            migGo store oc rest (i + 1) (m, fl + 1, sk) := by
          simp [migGo, hch, hoc]
        rw [hstep, h1, h2, hflt, hflt2]
        omega
      | ok =>
        obtain ⟨h1, h2⟩ := ih (i + 1) (m + 1) fl sk
        have hstep : migGo store oc (f :: rest) i (m, fl, sk) =
            migGo store oc rest (i + 1) (m + 1, fl, sk) := by
          simp [migGo, hch, hoc]
        rw [hstep, h1, h2, hflt, hflt2]
        omega

/-- Claim C7 (confirmed): over the N eligible candidates (non-folder entries
outside the root with no chat assignment), of which K sit in folders with no
ready channel, the migration report has `total = N`, `skipped = K` and
`migrated + failed = N - K` — for every pattern of per-candidate download or
upload failures, so no single failure aborts the batch. -/
theorem migration_report (store : MetadataStore) (oc : Nat → MigOutcome) :
    (migrate_files_to_folders store oc).total = (eligibleFiles store).length ∧
    (migrate_files_to_folders store oc).skipped =
      ((eligibleFiles store).filter (fun f => !folderHasChannel store f)).length ∧
    (migrate_files_to_folders store oc).migrated +
        (migrate_files_to_folders store oc).failed =
      (eligibleFiles store).length -
        ((eligibleFiles store).filter (fun f => !folderHasChannel store f)).length := by
  obtain ⟨h1, h2⟩ := migGo_spec store oc (eligibleFiles store) 0 0 0 0
  have hlen : (eligibleFiles store).length =
      ((eligibleFiles store).filter (fun f => folderHasChannel store f)).length +
      ((eligibleFiles store).filter (fun f => !folderHasChannel store f)).length := by
    simpa using List.length_eq_length_filter_add
      (l := eligibleFiles store) (fun f => folderHasChannel store f)
  have hm : (migrate_files_to_folders store oc).migrated =
      (migGo store oc (eligibleFiles store) 0 (0, 0, 0)).1 := rfl
  have hf : (migrate_files_to_folders store oc).failed =
      (migGo store oc (eligibleFiles store) 0 (0, 0, 0)).2.1 := rfl
  have hs : (migrate_files_to_folders store oc).skipped =
      (migGo store oc (eligibleFiles store) 0 (0, 0, 0)).2.2 := rfl
  refine ⟨rfl, ?_, ?_⟩
  · rw [hs, h1]
    omega
  · rw [hm, hf, h2]
    omega

/-- Claim C9 counterexample: `create_folder` does not reject names containing
path separators.  The name "a/b" (with a '/') is accepted: the separators
are silently replaced by underscores and the folder "/a_b" is created. -/
theorem create_folder_separator_counterexample :
    (create_folder MetadataStore.new "a/b" "/" (fun _ => (1, "t")) 0 0).isOk = true ∧
    (create_folder MetadataStore.new "a/b" "/" (fun _ => (1, "t")) 0 0).toOption.map
      Prod.snd = some "/a_b" := by
  constructor
  · decide
  · decide

/-- Claim C9 (corrected): `create_folder` rejects a name that is empty after
trimming; it does not reject path separators but replaces each '/' and '\\'
with '_' and proceeds with the sanitized name; it fails with the
folder-collision error when the resulting full path is already in `folders`,
and with the name-collision error when any entry (file or folder) in the
parent carries the sanitized name; and on every error the store is unchanged
and the remote-channel oracle is never consulted (any oracle yields the same
error). -/
theorem create_folder_validation (store : MetadataStore)
    (name parent : String) (chan : Unit → Int × String) (nowTs nowNanos : Int) :
    ((trimL name.data).isEmpty = true →
      create_folder store name parent chan nowTs nowNanos =
        .error "Folder name cannot be empty") ∧
    ((trimL name.data).isEmpty = false →
      fullPathOf name parent ∈ store.folders →
      create_folder store name parent chan nowTs nowNanos =
        .error "Folder already exists") ∧
    ((trimL name.data).isEmpty = false →
      fullPathOf name parent ∉ store.folders →
      (∃ f ∈ store.files, f.folder = parent ∧
        f.name = String.mk (sanitizeL name.data)) →
      create_folder store name parent chan nowTs nowNanos =
        .error "A file or folder with this name already exists") ∧
    (∀ msg, create_folder store name parent chan nowTs nowNanos = .error msg →
      storeAfterCreate store name parent chan nowTs nowNanos = store ∧
      ∀ chan' : Unit → Int × String,
        create_folder store name parent chan' nowTs nowNanos = .error msg) := by
  have hsan : (sanitizeL name.data).isEmpty = (trimL name.data).isEmpty := by
    unfold sanitizeL
    cases trimL name.data <;> simp
  refine ⟨fun h => ?_, fun h h2 => ?_, fun h h2 h3 => ?_, fun msg h => ?_⟩
  · simp [create_folder, h]
  · simp [create_folder, h, hsan, h2]
  · simp [create_folder, h, hsan, h2, h3]
  · constructor
    · unfold storeAfterCreate
      rw [h]
    · intro chan'
      unfold create_folder at h ⊢
      cases h1 : (trimL name.data).isEmpty
      · by_cases h2 : fullPathOf name parent ∈ store.folders
        · simp [h1, hsan, h2] at h ⊢
          exact h
        · by_cases h3 : ∃ f ∈ store.files, f.folder = parent ∧
              f.name = String.mk (sanitizeL name.data)
          · simp [h1, hsan, h2, h3] at h ⊢
            exact h
          · simp [h1, hsan, h2, h3] at h
      · simp [h1] at h ⊢
        exact h

/-- Witness for C9's corrected statement: creating "x" under "/" when "/x" is
already in the folders list fails with the folder-collision error. -/
theorem create_folder_validation_witness :
    create_folder collisionStore "x" "/" (fun _ => (1, "t")) 0 0 =
      .error "Folder already exists" :=
  (create_folder_validation collisionStore "x" "/" (fun _ => (1, "t")) 0 0).2.1
    (by decide) (by decide)

/-- Every non-folder entry produced by the normalization loop that still has
a message reference carries either the derived `chat:message_id` id or a
synthesized id. -/
theorem normalizeGo_shape (ts : Nat → Int) (l : List FileMetadata) :
    ∀ (seen : List String) (counter : Nat),
      ∀ g ∈ normalizeGo ts l seen counter, g.is_folder = false →
        ∀ m : Int, g.message_id = some m →
          g.id = chatPart g.chat_id ++ ":" ++ toString m ∨
            ∃ c, g.id = synthId ts c := by
  induction l with
  | nil =>
    intro seen counter g hg
    simp [normalizeGo] at hg
  | cons f rest ih =>
    intro seen counter g hg hnf m hm
    cases hf : f.is_folder
    case true =>
      rw [show normalizeGo ts (f :: rest) seen counter =
          f :: normalizeGo ts rest (f.id :: seen) counter by
        simp [normalizeGo, hf]] at hg
      rcases List.mem_cons.mp hg with h | h
      · subst h; rw [hf] at hnf; cases hnf
      · exact ih (f.id :: seen) counter g h hnf m hm
    case false =>
      by_cases hcol : derivedId f = "" ∨ derivedId f ∈ seen
      · rw [show normalizeGo ts (f :: rest) seen counter =
            { f with id := synthId ts (counter + 1) } ::
              normalizeGo ts rest (synthId ts (counter + 1) :: seen) (counter + 1) by
          simp [normalizeGo, hf, hcol]] at hg
        rcases List.mem_cons.mp hg with h | h
        · subst h
          exact Or.inr ⟨counter + 1, by simp⟩
        · exact ih _ _ g h hnf m hm
      · rw [show normalizeGo ts (f :: rest) seen counter =
            { f with id := derivedId f } ::
              normalizeGo ts rest (derivedId f :: seen) counter by
          simp [normalizeGo, hf, hcol]] at hg
        rcases List.mem_cons.mp hg with h | h
        · subst h
          simp only [] at hm ⊢
          left
          simp [derivedId, hm]
        · exact ih _ _ g h hnf m hm

/-- Invariant of the normalization loop: given fresh, injective synthesized
ids, the non-folder ids it emits are pairwise distinct and avoid the incoming
`seen` set. -/
theorem normalizeGo_nodup (ts : Nat → Int) (A : List String) (n : Nat)
    (hinj : ∀ c < n + 1, ∀ c' < n + 1, synthId ts c = synthId ts c' → c = c')
    (hfresh : ∀ c < n + 1, synthId ts c ∉ A) (l : List FileMetadata) :
    ∀ (seen : List String) (counter : Nat),
      counter + l.length ≤ n →
      (∀ s ∈ seen, s ∈ A ∨ ∃ c, c ≤ counter ∧ s = synthId ts c) →
      (∀ f ∈ l, f.id ∈ A ∧ derivedId f ∈ A) →
      (nonFolderIds (normalizeGo ts l seen counter)).Nodup ∧
      ∀ s ∈ nonFolderIds (normalizeGo ts l seen counter), s ∉ seen := by
  induction l with
  | nil =>
    intro seen counter _ _ _
    simp [normalizeGo, nonFolderIds]
  | cons f rest ih =>
    intro seen counter hcnt hseen hcand
    have hcnt' : counter + rest.length + 1 ≤ n := by
      rw [List.length_cons] at hcnt
      omega
    have hcandf := hcand f (List.mem_cons_self f rest)
    have hcand' : ∀ g ∈ rest, g.id ∈ A ∧ derivedId g ∈ A :=
      fun g hg => hcand g (List.mem_cons_of_mem f hg)
    cases hf : f.is_folder
    case true =>
      have heq : nonFolderIds (normalizeGo ts (f :: rest) seen counter) =
          nonFolderIds (normalizeGo ts rest (f.id :: seen) counter) := by
        simp [normalizeGo, hf, nonFolderIds, List.filter_cons]
      have hseen' : ∀ s ∈ f.id :: seen,
          s ∈ A ∨ ∃ c, c ≤ counter ∧ s = synthId ts c := by
        intro s hs
        rcases List.mem_cons.mp hs with h | h
        · exact Or.inl (h ▸ hcandf.1)
        · exact hseen s h
      obtain ⟨nd, hni⟩ := ih (f.id :: seen) counter (by omega) hseen' hcand'
      rw [heq]
      exact ⟨nd, fun s hs hm => hni s hs (List.mem_cons_of_mem _ hm)⟩
    case false =>
      by_cases hcol : derivedId f = "" ∨ derivedId f ∈ seen
      · -- synthesized-id branch
        have hcle : counter + 1 < n + 1 := by omega
        have hnotin : synthId ts (counter + 1) ∉ seen := by
          intro hmem
          rcases hseen _ hmem with hA | ⟨c', hc', hc'eq⟩
          · exact hfresh (counter + 1) hcle hA
          · have hc'lt : c' < n + 1 := by omega
            have := hinj (counter + 1) hcle c' hc'lt hc'eq
            omega
        have heq : nonFolderIds (normalizeGo ts (f :: rest) seen counter) =
            synthId ts (counter + 1) ::
              nonFolderIds (normalizeGo ts rest
                (synthId ts (counter + 1) :: seen) (counter + 1)) := by
          simp [normalizeGo, hf, hcol, nonFolderIds, List.filter_cons]
        have hseen' : ∀ s ∈ synthId ts (counter + 1) :: seen,
            s ∈ A ∨ ∃ c, c ≤ counter + 1 ∧ s = synthId ts c := by
          intro s hs
          rcases List.mem_cons.mp hs with h | h
          · exact Or.inr ⟨counter + 1, le_refl _, h⟩
          · rcases hseen s h with hA | ⟨c', hc', hc'eq⟩
            · exact Or.inl hA
            · exact Or.inr ⟨c', by omega, hc'eq⟩
        obtain ⟨nd, hni⟩ := ih (synthId ts (counter + 1) :: seen) (counter + 1)
          (by omega) hseen' hcand'
        rw [heq]
        refine ⟨List.nodup_cons.mpr ⟨fun hm => ?_, nd⟩, ?_⟩
        · exact hni _ hm (List.mem_cons_self _ _)
        · intro s hs
          rcases List.mem_cons.mp hs with h | h
          · exact h ▸ hnotin
          · exact fun hm => hni s h (List.mem_cons_of_mem _ hm)
      · -- derived-or-kept-id branch
        push_neg at hcol
        have heq : nonFolderIds (normalizeGo ts (f :: rest) seen counter) =
            derivedId f ::
              nonFolderIds (normalizeGo ts rest (derivedId f :: seen) counter) := by
          simp [normalizeGo, hf, hcol.1, hcol.2, nonFolderIds, List.filter_cons]
        have hseen' : ∀ s ∈ derivedId f :: seen,
            s ∈ A ∨ ∃ c, c ≤ counter ∧ s = synthId ts c := by
          intro s hs
          rcases List.mem_cons.mp hs with h | h
          · exact Or.inl (h ▸ hcandf.2)
          · exact hseen s h
        obtain ⟨nd, hni⟩ := ih (derivedId f :: seen) counter (by omega) hseen' hcand'
        rw [heq]
        refine ⟨List.nodup_cons.mpr ⟨fun hm => ?_, nd⟩, ?_⟩
        · exact hni _ hm (List.mem_cons_self _ _)
        · intro s hs
          rcases List.mem_cons.mp hs with h | h
          · exact h ▸ hcol.2
          · exact fun hm => hni s h (List.mem_cons_of_mem _ hm)

/-- Claim C2 counterexample: `normalize_file_ids` skips `is_folder = true`
entries entirely, so a store with two virtual folder entries sharing the id
"dup" keeps the duplicate after normalization — the ids are not unique. -/
theorem normalize_duplicate_counterexample :
    ((normalize_file_ids (fun _ => 0) dupFolderStore).files.map (fun f => f.id)) =
      ["dup", "dup"] ∧
    ¬ ((normalize_file_ids (fun _ => 0) dupFolderStore).files.map
        (fun f => f.id)).Nodup := by
  constructor
  · decide
  · decide

/-- Claim C2 (corrected): normalization guarantees uniqueness only among
`is_folder = false` entries, and only up to freshness of the synthesized ids.
Provided the synthesized `local:timestamp:counter` ids for the at most
`files.length` counters that can occur are pairwise distinct and absent from
the store's original and derived ids, the normalized non-folder entries have
pairwise distinct ids, and every non-folder entry with a message reference
ends up with either its derived `chat:message_id` id ("saved" as the chat
part when `chat_id` is absent) or, when that id is empty or already taken, a
synthesized id.  Folder entries are left untouched (see the
counterexample). -/
theorem normalize_nonfolder_unique (ts : Nat → Int) (store : MetadataStore)
    (hinj : ∀ c < store.files.length + 1, ∀ c' < store.files.length + 1,
      synthId ts c = synthId ts c' → c = c')
    (hfresh : ∀ c < store.files.length + 1, synthId ts c ∉ allCandidates store) :
    (nonFolderIds (normalize_file_ids ts store).files).Nodup ∧
    ∀ g ∈ (normalize_file_ids ts store).files, g.is_folder = false →
      ∀ m : Int, g.message_id = some m →
        g.id = chatPart g.chat_id ++ ":" ++ toString m ∨
          ∃ c, g.id = synthId ts c := by
  constructor
  · exact (normalizeGo_nodup ts (allCandidates store) store.files.length hinj hfresh
      store.files [] 0 (by omega) (by simp)
      (fun f hf => ⟨List.mem_append_left _ (List.mem_map_of_mem _ hf),
        List.mem_append_right _ (List.mem_map_of_mem _ hf)⟩)).1
  · intro g hg
    exact normalizeGo_shape ts store.files [] 0 g hg

/-- Witness for C2's corrected statement on a one-file store with the
identity-timestamp oracle. -/
theorem normalize_nonfolder_unique_witness :
    (nonFolderIds (normalize_file_ids (fun c => (c : Int)) oneFileStore).files).Nodup :=
  (normalize_nonfolder_unique (fun c => (c : Int)) oneFileStore
    (by decide) (by decide)).1
